import Mathlib

/-!
Verification of the scroll-driven 3D suit landing page core:
the keyframe interpolation engine (useSuitScrollAnimation.ts),
the camera controller and the bounding-volume normalization
(CameraController and SuitModel in the extended ThreeSuitCanvas
variant embedded in Navbar.tsx, which is the variant with the
pixel offset and pivot features).

JavaScript numbers are modelled as real numbers; note that in the
real-valued model division by zero yields 0 while in JavaScript it
yields Infinity or NaN. Wherever that difference matters it is
called out next to the theorem.
-/

-- ============================================
-- Keyframe data (KEYFRAMES in useSuitScrollAnimation.ts)
-- ============================================

/-- One authored page section of the KEYFRAMES table:
scroll range plus the per-channel target values. -/
structure SectionKeyframe where
  scrollStart : ℝ
  scrollEnd : ℝ
  rotationY : ℝ
  zoom : ℝ
  cameraY : ℝ
  cameraX : ℝ
  opacity : ℝ

/-- KEYFRAMES.hero from the source. -/
noncomputable def KEYFRAMES_hero : SectionKeyframe :=
  ⟨0.0, 0.2, 0.35, 3.0, 1.6, 1.5, 1.0⟩

/-- KEYFRAMES.craft from the source. -/
noncomputable def KEYFRAMES_craft : SectionKeyframe :=
  ⟨0.2, 0.45, 1.2, 1.08, 1.65, 1.5, 1.0⟩

/-- KEYFRAMES.collection from the source; rotationY is Math.PI * 0.75. -/
noncomputable def KEYFRAMES_collection : SectionKeyframe :=
  ⟨0.45, 0.7, Real.pi * 0.75, 0.95, 1.7, 1.3, 1.0⟩

/-- KEYFRAMES.experience from the source. -/
noncomputable def KEYFRAMES_experience : SectionKeyframe :=
  ⟨0.7, 0.85, 2.0, 1.02, 1.75, 1.2, 1.0⟩

/-- KEYFRAMES.contact from the source. -/
noncomputable def KEYFRAMES_contact : SectionKeyframe :=
  ⟨0.85, 1.0, 2.2, 0.98, 1.8, 1.0, 0.0⟩

/-- The ordered section list built at the top of getInterpolationArrays. -/
noncomputable def sectionsList : List SectionKeyframe :=
  [KEYFRAMES_hero, KEYFRAMES_craft, KEYFRAMES_collection,
   KEYFRAMES_experience, KEYFRAMES_contact]

/-- scrollBreakpoints from getInterpolationArrays: each section start,
plus the end of the last section. -/
noncomputable def scrollBreakpoints : List ℝ :=
  sectionsList.map (fun s => s.scrollStart) ++ [KEYFRAMES_contact.scrollEnd]

/-- rotationValues from getInterpolationArrays. -/
noncomputable def rotationValues : List ℝ :=
  sectionsList.map (fun s => s.rotationY) ++ [KEYFRAMES_contact.rotationY]

/-- zoomValues from getInterpolationArrays. -/
noncomputable def zoomValues : List ℝ :=
  sectionsList.map (fun s => s.zoom) ++ [KEYFRAMES_contact.zoom]

/-- cameraYValues from getInterpolationArrays. -/
noncomputable def cameraYValues : List ℝ :=
  sectionsList.map (fun s => s.cameraY) ++ [KEYFRAMES_contact.cameraY]

/-- cameraXValues from getInterpolationArrays. -/
noncomputable def cameraXValues : List ℝ :=
  sectionsList.map (fun s => s.cameraX) ++ [KEYFRAMES_contact.cameraX]

/-- opacityValues from getInterpolationArrays. -/
noncomputable def opacityValues : List ℝ :=
  sectionsList.map (fun s => s.opacity) ++ [KEYFRAMES_contact.opacity]

-- ============================================
-- Piecewise-linear interpolation engine
-- ============================================

/-- Modelled from the spec: the KeyframeInterpolator segment search of
section 4.1 (the runtime interpolation itself is performed by the external
framer-motion useTransform collaborator, whose code is not part of this
repository). Walks consecutive breakpoint pairs; inside the bracketing
segment it linearly interpolates, a zero-width segment returns its left
value, and progress past the last breakpoint returns the last value. -/
def interpSeg {α : Type} [LinearOrderedField α] (p : α) :
    α × α → List (α × α) → α
  | hd, [] => hd.2
  | hd, nxt :: rest =>
    if p ≤ nxt.1 then
      if nxt.1 = hd.1 then hd.2
      else hd.2 + (nxt.2 - hd.2) * ((p - hd.1) / (nxt.1 - hd.1))
    else interpSeg p nxt rest

/-- Modelled from the spec: interpolate(progress) of section 4.1 for one
channel table of (progress, value) breakpoints. Progress at or below the
first breakpoint clamps to the first value; an empty table is the
EmptyKeyframeTable configuration error, returned as none. -/
def interpolate {α : Type} [LinearOrderedField α]
    (table : List (α × α)) (p : α) : Option α :=
  match table with
  | [] => none
  | hd :: rest => some (if p ≤ hd.1 then hd.2 else interpSeg p hd rest)

/-- The rotation channel breakpoint table (breakpoints zipped with values). -/
noncomputable def rotationTable : List (ℝ × ℝ) :=
  scrollBreakpoints.zip rotationValues

/-- The zoom channel breakpoint table. -/
noncomputable def zoomTable : List (ℝ × ℝ) :=
  scrollBreakpoints.zip zoomValues

/-- The cameraY channel breakpoint table. -/
noncomputable def cameraYTable : List (ℝ × ℝ) :=
  scrollBreakpoints.zip cameraYValues

/-- The cameraX channel breakpoint table. -/
noncomputable def cameraXTable : List (ℝ × ℝ) :=
  scrollBreakpoints.zip cameraXValues

/-- The opacity channel breakpoint table. -/
noncomputable def opacityTable : List (ℝ × ℝ) :=
  scrollBreakpoints.zip opacityValues

-- ============================================
-- Camera controller (CameraController in Navbar.tsx, lines 301-356)
-- ============================================

/-- A 3D vector, as used for camera positions (THREE.Vector3). -/
structure Vec3 where
  x : ℝ
  y : ℝ
  z : ℝ

/-- THREE.MathUtils.lerp: x + (y - x) * t. The same formula is applied
componentwise by THREE.Vector3.lerp. -/
noncomputable def lerp (x y t : ℝ) : ℝ := x + (y - x) * t

/-- THREE.Vector3.lerp applied to a whole vector with blend factor t. -/
noncomputable def vlerp (a b : Vec3) (t : ℝ) : Vec3 :=
  ⟨lerp a.x b.x t, lerp a.y b.y t, lerp a.z b.z t⟩

/-- CAMERA_CONFIG.fov from the source (degrees). -/
noncomputable def CAMERA_CONFIG_fov : ℝ := 45

/-- CAMERA_CONFIG.defaultPosition from the source; its z component is the
base camera distance used by the controller. -/
noncomputable def CAMERA_CONFIG_defaultPosition : Vec3 := ⟨2, 1.6, 5⟩

/-- The default value of the offsetXPx prop of ThreeSuitCanvas in the
extended variant (Navbar.tsx line 469): offsetXPx = -400. -/
noncomputable def ThreeSuitCanvas_offsetXPx_default : ℝ := -400

/-- The target position computed inside the useFrame callback of
CameraController: fovRad, distance = baseZ / zoom, world viewport height
and width at that distance, the pixel offset converted to world units,
and the resulting target vector. -/
noncomputable def cameraTarget (zoom camY camX offsetXPx w h : ℝ) : Vec3 :=
  let fovRad := CAMERA_CONFIG_fov * Real.pi / 180
  let baseZ := CAMERA_CONFIG_defaultPosition.z
  let distance := baseZ / zoom
  let viewportHeightAtDist := 2 * Real.tan (fovRad / 2) * distance
  let aspect := w / h
  let viewportWidthAtDist := viewportHeightAtDist * aspect
  let worldOffsetX := (offsetXPx / w) * viewportWidthAtDist
  ⟨camX + worldOffsetX, camY, distance⟩

/-- One frame of CameraController: the camera position is lerped toward
the target with the fixed per-frame factor 0.05. -/
noncomputable def cameraAdvance (prev : Vec3)
    (zoom camY camX offsetXPx w h : ℝ) : Vec3 :=
  vlerp prev (cameraTarget zoom camY camX offsetXPx w h) 0.05

/-- The camera advance written exactly as the spec (section 4.3) words it,
step by step, with field of view, base distance, pixel offset and
smoothing factor as explicit parameters. Used to compare the code against
the spec formulas. -/
noncomputable def cameraAdvanceSpec (prev : Vec3)
    (zoom camY camX w h fovDegrees baseDistance pixelOffsetX
     smoothingFactor : ℝ) : Vec3 :=
  let distance := baseDistance / zoom
  let fovRadians := fovDegrees * Real.pi / 180
  let worldViewportHeightAtDistance :=
    2 * Real.tan (fovRadians / 2) * distance
  let worldViewportWidthAtDistance :=
    worldViewportHeightAtDistance * (w / h)
  let worldOffsetX := (pixelOffsetX / w) * worldViewportWidthAtDistance
  let targetPosition : Vec3 := ⟨camX + worldOffsetX, camY, distance⟩
  vlerp prev targetPosition smoothingFactor

/-- Repeated per-frame smoothing: n applications of the lerp step toward
a fixed target t with constant factor f, starting from x. This is the
state evolution of camera.position.lerp(target, 0.05) (and of the
rotation lerp with factor 0.1) under a constant target. -/
noncomputable def lerpIter (f t : ℝ) : ℕ → ℝ → ℝ
  | 0, x => x
  | n + 1, x => lerp (lerpIter f t n x) t f

-- ============================================
-- Bounding-volume normalization (SuitModel in Navbar.tsx, lines 233-276)
-- ============================================

/-- THREE.Box3: an axis-aligned box given by its two extreme corners
(lo is the min corner, hi the max corner). -/
structure Box3 where
  lo : Vec3
  hi : Vec3

/-- Box3.getSize: the componentwise difference hi - lo. -/
noncomputable def boxSize (b : Box3) : Vec3 :=
  ⟨b.hi.x - b.lo.x, b.hi.y - b.lo.y, b.hi.z - b.lo.z⟩

/-- Box3.getCenter: the componentwise midpoint (lo + hi) * 0.5. -/
noncomputable def boxCenter (b : Box3) : Vec3 :=
  ⟨(b.lo.x + b.hi.x) * 0.5, (b.lo.y + b.hi.y) * 0.5, (b.lo.z + b.hi.z) * 0.5⟩

/-- Math.max(size.x, size.y, size.z) as computed in SuitModel. -/
noncomputable def maxDimension (b : Box3) : ℝ :=
  max (max (boxSize b).x (boxSize b).y) (boxSize b).z

/-- A uniform scale together with a translation, the output of the
bounding-volume normalization (scale.setScalar plus position). -/
structure NormalizedTransform where
  scale : ℝ
  translation : Vec3

/-- MODEL_CONFIG.targetSize from the source. -/
noncomputable def MODEL_CONFIG_targetSize : ℝ := 3

/-- MODEL_CONFIG.scaleMultiplier from the source. -/
noncomputable def MODEL_CONFIG_scaleMultiplier : ℝ := 1.0

/-- MODEL_CONFIG.yOffset from the source. -/
noncomputable def MODEL_CONFIG_yOffset : ℝ := 0

/-- MODEL_CONFIG.desktopPivotOffsetX from the source (applied when the
viewport is at least 768 pixels wide, 0 otherwise). -/
noncomputable def MODEL_CONFIG_desktopPivotOffsetX : ℝ := 0.5

/-- The auto-scaling and auto-centering of the processedScene memo in
SuitModel: scale = targetSize / maxDimension * scaleMultiplier, and
position = (-center.x * scale + pivotOffsetX,
-center.y * scale + yOffset, -center.z * scale). The code performs no
degeneracy check on maxDimension before dividing. -/
noncomputable def normalizeTransform (b : Box3)
    (targetSize scaleMultiplier yOffset pivotOffsetX : ℝ) :
    NormalizedTransform :=
  let scale := targetSize / maxDimension b * scaleMultiplier
  ⟨scale,
   ⟨-(boxCenter b).x * scale + pivotOffsetX,
    -(boxCenter b).y * scale + yOffset,
    -(boxCenter b).z * scale⟩⟩

/-- Applying a NormalizedTransform to a box: every corner c maps to
scale * c + translation and the result is the axis-aligned box of the
transformed corners, which is the componentwise min and max of the two
transformed extreme corners. -/
noncomputable def applyTransformBox (T : NormalizedTransform) (b : Box3) :
    Box3 :=
  ⟨⟨min (T.scale * b.lo.x + T.translation.x)
        (T.scale * b.hi.x + T.translation.x),
    min (T.scale * b.lo.y + T.translation.y)
        (T.scale * b.hi.y + T.translation.y),
    min (T.scale * b.lo.z + T.translation.z)
        (T.scale * b.hi.z + T.translation.z)⟩,
   ⟨max (T.scale * b.lo.x + T.translation.x)
        (T.scale * b.hi.x + T.translation.x),
    max (T.scale * b.lo.y + T.translation.y)
        (T.scale * b.hi.y + T.translation.y),
    max (T.scale * b.lo.z + T.translation.z)
        (T.scale * b.hi.z + T.translation.z)⟩⟩

-- ============================================
-- Channel table evaluation lemmas
-- ============================================

theorem opacityTable_eq :
    opacityTable = [(0.0, 1.0), (0.2, 1.0), (0.45, 1.0),
                    (0.7, 1.0), (0.85, 0.0), (1.0, 0.0)] := rfl

theorem rotationTable_eq :
    rotationTable = [(0.0, 0.35), (0.2, 1.2), (0.45, Real.pi * 0.75),
                     (0.7, 2.0), (0.85, 2.2), (1.0, 2.2)] := rfl

theorem zoomTable_eq :
    zoomTable = [(0.0, 3.0), (0.2, 1.08), (0.45, 0.95),
                 (0.7, 1.02), (0.85, 0.98), (1.0, 0.98)] := rfl

theorem cameraYTable_eq :
    cameraYTable = [(0.0, 1.6), (0.2, 1.65), (0.45, 1.7),
                    (0.7, 1.75), (0.85, 1.8), (1.0, 1.8)] := rfl

theorem cameraXTable_eq :
    cameraXTable = [(0.0, 1.5), (0.2, 1.5), (0.45, 1.3),
                    (0.7, 1.2), (0.85, 1.0), (1.0, 1.0)] := rfl

-- ============================================
-- General interpolation lemmas
-- ============================================

theorem interpSeg_cons_eq (p : ℝ) (hd nxt : ℝ × ℝ) (rest : List (ℝ × ℝ)) :
    interpSeg p hd (nxt :: rest) =
      if p ≤ nxt.1 then
        if nxt.1 = hd.1 then hd.2
        else hd.2 + (nxt.2 - hd.2) * ((p - hd.1) / (nxt.1 - hd.1))
      else interpSeg p nxt rest := rfl

theorem interpSeg_bounds {lo hi : ℝ} (p : ℝ) (hd : ℝ × ℝ)
    (rest : List (ℝ × ℝ)) (hp : hd.1 < p)
    (hhd : lo ≤ hd.2 ∧ hd.2 ≤ hi)
    (hrest : ∀ q ∈ rest, lo ≤ q.2 ∧ q.2 ≤ hi) :
    lo ≤ interpSeg p hd rest ∧ interpSeg p hd rest ≤ hi := by
  induction rest generalizing hd with
  | nil => simpa [interpSeg] using hhd
  | cons nxt rest ih =>
    have hnxt := hrest nxt (List.mem_cons_self _ _)
    rw [interpSeg_cons_eq]
    by_cases h1 : p ≤ nxt.1
    · rw [if_pos h1]
      by_cases h2 : nxt.1 = hd.1
      · rw [if_pos h2]; exact hhd
      · rw [if_neg h2]
        have hlt : hd.1 < nxt.1 := lt_of_lt_of_le hp h1
        set t : ℝ := (p - hd.1) / (nxt.1 - hd.1) with ht
        have ht0 : 0 ≤ t := by
          apply div_nonneg <;> linarith
        have ht1 : t ≤ 1 := by
          rw [ht, div_le_one (by linarith)]
          linarith
        have u1 : (1 - t) * lo ≤ (1 - t) * hd.2 :=
          mul_le_mul_of_nonneg_left hhd.1 (by linarith)
        have u2 : t * lo ≤ t * nxt.2 :=
          mul_le_mul_of_nonneg_left hnxt.1 ht0
        have u3 : (1 - t) * hd.2 ≤ (1 - t) * hi :=
          mul_le_mul_of_nonneg_left hhd.2 (by linarith)
        have u4 : t * nxt.2 ≤ t * hi :=
          mul_le_mul_of_nonneg_left hnxt.2 ht0
        constructor <;> nlinarith
    · rw [if_neg h1]
      exact ih nxt (not_le.mp h1) hnxt
        (fun q hq => hrest q (List.mem_cons_of_mem _ hq))

theorem interpolate_bounds {lo hi : ℝ} (table : List (ℝ × ℝ)) (p v : ℝ)
    (hv : ∀ q ∈ table, lo ≤ q.2 ∧ q.2 ≤ hi)
    (h : interpolate table p = some v) : lo ≤ v ∧ v ≤ hi := by
  cases table with
  | nil => simp [interpolate] at h
  | cons hd rest =>
    simp only [interpolate, Option.some.injEq] at h
    have hhd := hv hd (List.mem_cons_self _ _)
    by_cases hple : p ≤ hd.1
    · rw [if_pos hple] at h; exact h ▸ hhd
    · rw [if_neg hple] at h
      exact h ▸ interpSeg_bounds p hd rest (not_le.mp hple) hhd
        (fun q hq => hv q (List.mem_cons_of_mem _ hq))

-- ============================================
-- Claim theorems: interpolation (C2, C6, C8, C9)
-- ============================================

/-- Claim C2, counterexample: with the shipped opacity table the value at
progress 0.85 is not 1.0. The breakpoint authored at 0.85 is the contact
section value 0.0, so the left segment from (0.7, 1.0) to (0.85, 0.0)
evaluates to 0.0 at its right endpoint, and both adjacent segments agree
there. -/
theorem opacity_at_085_cex : interpolate opacityTable (0.85 : ℝ) ≠ some 1 := by
  rw [opacityTable_eq]
  norm_num [interpolate, interpSeg]

/-- Claim C2, amended: with the shipped opacity breakpoint table
(values 1,1,1,1,0,0 at progress 0.0, 0.2, 0.45, 0.7, 0.85, 1.0),
interpolate at 0.9 equals exactly 0.0 (inside the flat terminal segment)
and interpolate at 0.85 also equals exactly 0.0, the authored breakpoint
value there; the fade to zero happens across the 0.7 to 0.85 segment. -/
theorem opacity_terminal_values :
    interpolate opacityTable (0.9 : ℝ) = some 0 ∧
    interpolate opacityTable (0.85 : ℝ) = some 0 := by
  rw [opacityTable_eq]
  constructor <;> norm_num [interpolate, interpSeg]

/-- Claim C6: for every channel of the shipped breakpoint table,
interpolation clamps out-of-range progress to the endpoint values
(interpolate at -1 equals interpolate at 0, and at 2 equals at 1), and
for every real progress the interpolation of every shipped channel
returns a value (it never fails or indexes out of range). -/
theorem interpolate_clamps_shipped :
    (interpolate rotationTable (-1 : ℝ) = interpolate rotationTable 0 ∧
     interpolate rotationTable (2 : ℝ) = interpolate rotationTable 1) ∧
    (interpolate zoomTable (-1 : ℝ) = interpolate zoomTable 0 ∧
     interpolate zoomTable (2 : ℝ) = interpolate zoomTable 1) ∧
    (interpolate cameraYTable (-1 : ℝ) = interpolate cameraYTable 0 ∧
     interpolate cameraYTable (2 : ℝ) = interpolate cameraYTable 1) ∧
    (interpolate cameraXTable (-1 : ℝ) = interpolate cameraXTable 0 ∧
     interpolate cameraXTable (2 : ℝ) = interpolate cameraXTable 1) ∧
    (interpolate opacityTable (-1 : ℝ) = interpolate opacityTable 0 ∧
     interpolate opacityTable (2 : ℝ) = interpolate opacityTable 1) ∧
    (∀ p : ℝ, (interpolate rotationTable p).isSome ∧
      (interpolate zoomTable p).isSome ∧
      (interpolate cameraYTable p).isSome ∧
      (interpolate cameraXTable p).isSome ∧
      (interpolate opacityTable p).isSome) := by
  refine ⟨?_, ?_, ?_, ?_, ?_, ?_⟩
  · rw [rotationTable_eq]
    constructor <;> norm_num [interpolate, interpSeg]
  · rw [zoomTable_eq]
    constructor <;> norm_num [interpolate, interpSeg]
  · rw [cameraYTable_eq]
    constructor <;> norm_num [interpolate, interpSeg]
  · rw [cameraXTable_eq]
    constructor <;> norm_num [interpolate, interpSeg]
  · rw [opacityTable_eq]
    constructor <;> norm_num [interpolate, interpSeg]
  · intro p
    rw [rotationTable_eq, zoomTable_eq, cameraYTable_eq, cameraXTable_eq,
      opacityTable_eq]
    refine ⟨?_, ?_, ?_, ?_, ?_⟩ <;> simp [interpolate]

/-- Claim C8, counterexample: with the shipped rotation table the value at
progress 0.325 is not exactly 1.778, because the shipped collection
rotation keyframe is Math.PI * 0.75 (about 2.35619), not 2.356: the
interpolated value is 0.6 + 0.375 * pi, which exceeds 1.778. -/
theorem rotation_at_0325_cex :
    interpolate rotationTable (0.325 : ℝ) ≠ some 1.778 := by
  rw [rotationTable_eq]
  have hpi := Real.pi_gt_d6
  norm_num [interpolate, interpSeg]
  nlinarith

/-- Claim C8, amended: with the shipped rotation breakpoint table
(collection rotation authored as Math.PI * 0.75), interpolate at 0.325
equals 1.2 + (pi * 0.75 - 1.2) * (0.325 - 0.2) / (0.45 - 0.2), that is
0.6 + 0.375 * pi, approximately 1.77810 rather than exactly 1.778. -/
theorem rotation_at_0325_value :
    interpolate rotationTable (0.325 : ℝ)
      = some (1.2 + (Real.pi * 0.75 - 1.2) * ((0.325 - 0.2) / (0.45 - 0.2))) := by
  rw [rotationTable_eq]
  norm_num [interpolate, interpSeg]

/-- Claim C9: for every real progress input, each shipped channel
interpolated output lies between that channel minimum and maximum
authored keyframe values; in particular the opacity output always lies
in the interval from 0 to 1 even though the interpolator itself performs
no clamping of values. -/
theorem channel_outputs_bounded :
    (∀ p v : ℝ, interpolate rotationTable p = some v →
      0.35 ≤ v ∧ v ≤ Real.pi * 0.75) ∧
    (∀ p v : ℝ, interpolate zoomTable p = some v → 0.95 ≤ v ∧ v ≤ 3) ∧
    (∀ p v : ℝ, interpolate cameraYTable p = some v → 1.6 ≤ v ∧ v ≤ 1.8) ∧
    (∀ p v : ℝ, interpolate cameraXTable p = some v → 1 ≤ v ∧ v ≤ 1.5) ∧
    (∀ p v : ℝ, interpolate opacityTable p = some v → 0 ≤ v ∧ v ≤ 1) := by
  have hpi := Real.pi_gt_three
  refine ⟨?_, ?_, ?_, ?_, ?_⟩ <;> intro p v h
  · refine interpolate_bounds rotationTable p v ?_ h
    rw [rotationTable_eq]
    intro q hq
    simp only [List.mem_cons, List.not_mem_nil, or_false] at hq
    rcases hq with rfl | rfl | rfl | rfl | rfl | rfl <;>
      constructor <;> nlinarith
  · refine interpolate_bounds zoomTable p v ?_ h
    rw [zoomTable_eq]
    intro q hq
    simp only [List.mem_cons, List.not_mem_nil, or_false] at hq
    rcases hq with rfl | rfl | rfl | rfl | rfl | rfl <;>
      constructor <;> norm_num
  · refine interpolate_bounds cameraYTable p v ?_ h
    rw [cameraYTable_eq]
    intro q hq
    simp only [List.mem_cons, List.not_mem_nil, or_false] at hq
    rcases hq with rfl | rfl | rfl | rfl | rfl | rfl <;>
      constructor <;> norm_num
  · refine interpolate_bounds cameraXTable p v ?_ h
    rw [cameraXTable_eq]
    intro q hq
    simp only [List.mem_cons, List.not_mem_nil, or_false] at hq
    rcases hq with rfl | rfl | rfl | rfl | rfl | rfl <;>
      constructor <;> norm_num
  · refine interpolate_bounds opacityTable p v ?_ h
    rw [opacityTable_eq]
    intro q hq
    simp only [List.mem_cons, List.not_mem_nil, or_false] at hq
    rcases hq with rfl | rfl | rfl | rfl | rfl | rfl <;>
      constructor <;> norm_num

/-- Claim C9, witness: the opacity bound applied at progress 0 where the
interpolated value is 1. -/
theorem channel_outputs_bounded_witness :
    interpolate opacityTable (0 : ℝ) = some 1 ∧ ((0:ℝ) ≤ 1 ∧ (1:ℝ) ≤ 1) := by
  have hev : interpolate opacityTable (0 : ℝ) = some 1 := by
    rw [opacityTable_eq]
    norm_num [interpolate]
  exact ⟨hev, channel_outputs_bounded.2.2.2.2 0 1 hev⟩

-- ============================================
-- Claim theorems: camera controller (C1, C3, C10)
-- ============================================

/-- Claim C1: for every frame with positive viewport dimensions and
nonzero zoom, the camera controller computes its target and new position
exactly by the spec formulas of section 4.3: distance = baseDistance/zoom,
fovRadians = fovDegrees * pi / 180, world viewport height
2 tan(fov/2) distance, width = height times aspect, pixel offset scaled
into world units, target = (cameraX + worldOffsetX, cameraY, distance),
new position = lerp(previous, target, 0.05), with the shipped constants
fovDegrees = 45 and baseDistance = 5. -/
theorem cameraAdvance_matches_spec (prev : Vec3)
    (zoom camY camX offsetXPx w h : ℝ)
    (hw : 0 < w) (hh : 0 < h) (hz : zoom ≠ 0) :
    cameraAdvance prev zoom camY camX offsetXPx w h =
      cameraAdvanceSpec prev zoom camY camX w h CAMERA_CONFIG_fov
        CAMERA_CONFIG_defaultPosition.z offsetXPx 0.05 := rfl

/-- Claim C1, witness: the equality instantiated at a concrete frame
(zoom 3, a 1920 by 1080 viewport, the default pixel offset). -/
theorem cameraAdvance_matches_spec_witness :
    (0 : ℝ) < 1920 ∧ (0 : ℝ) < 1080 ∧ (3 : ℝ) ≠ 0 ∧
    cameraAdvance ⟨2, 1.6, 5⟩ 3 1.6 1.5 (-400) 1920 1080 =
      cameraAdvanceSpec ⟨2, 1.6, 5⟩ 3 1.6 1.5 1920 1080 CAMERA_CONFIG_fov
        CAMERA_CONFIG_defaultPosition.z (-400) 0.05 :=
  ⟨by norm_num, by norm_num, by norm_num,
   cameraAdvance_matches_spec ⟨2, 1.6, 5⟩ 3 1.6 1.5 (-400) 1920 1080
     (by norm_num) (by norm_num) (by norm_num)⟩

/-- Claim C3, failing input: the useFrame body of CameraController has no
guard on the viewport size, so with viewportHeight = 0 the frame update is
not skipped. In this real-valued model (division by zero yields 0) the
camera still moves toward (cameraX, cameraY, distance): from the origin
with zoom 1 the z component becomes 0.25 after one frame. In JavaScript
the same frame computes aspect = width / 0 = Infinity and, with the
default offsetXPx = -400, the camera x becomes -Infinity (and NaN when
offsetXPx = 0), so the claimed no-NaN no-Infinity guarantee fails too. -/
theorem cameraAdvance_zero_height_not_skipped :
    (cameraAdvance ⟨0, 0, 0⟩ 1 1.6 2 (-400) 1920 0).z = 0.25 ∧
    cameraAdvance ⟨0, 0, 0⟩ 1 1.6 2 (-400) 1920 0 ≠ ⟨0, 0, 0⟩ := by
  have hz : (cameraAdvance ⟨0, 0, 0⟩ 1 1.6 2 (-400) 1920 0).z = 0.25 := by
    norm_num [cameraAdvance, cameraTarget, vlerp, lerp,
      CAMERA_CONFIG_defaultPosition]
  refine ⟨hz, fun hEq => ?_⟩
  rw [hEq] at hz
  norm_num at hz

/-- Claim C10: the offsetXPx prop of the extended ThreeSuitCanvas defaults
to -400 pixels, so the camera target x coordinate is the interpolated
horizontal offset minus 400/viewportWidth of the world-space viewport
width at the current camera distance: a leftward shift of the target
rather than the unshifted interpolated value. -/
theorem default_offset_shifts_target (zoom camY camX w h : ℝ) :
    ThreeSuitCanvas_offsetXPx_default = -400 ∧
    (cameraTarget zoom camY camX ThreeSuitCanvas_offsetXPx_default w h).x =
      camX - (400 / w) *
        (2 * Real.tan (CAMERA_CONFIG_fov * Real.pi / 180 / 2) *
          (CAMERA_CONFIG_defaultPosition.z / zoom) * (w / h)) := by
  refine ⟨rfl, ?_⟩
  simp [cameraTarget, ThreeSuitCanvas_offsetXPx_default]
  ring

-- ============================================
-- Claim theorems: smoothing convergence (C7)
-- ============================================

theorem lerpIter_sub_target (f t x : ℝ) :
    ∀ n : ℕ, lerpIter f t n x - t = (1 - f) ^ n * (x - t) := by
  intro n
  induction n with
  | zero => simp [lerpIter]
  | succ n ih =>
    have hstep : lerp (lerpIter f t n x) t f - t
        = (1 - f) * (lerpIter f t n x - t) := by
      simp only [lerp]; ring
    calc lerpIter f t (n + 1) x - t
        = (1 - f) * (lerpIter f t n x - t) := by rw [lerpIter]; exact hstep
      _ = (1 - f) * ((1 - f) ^ n * (x - t)) := by rw [ih]
      _ = (1 - f) ^ (n + 1) * (x - t) := by ring

/-- Claim C7: for every start and fixed target, iterating the per-frame
smoothing step with a constant factor f in (0, 1] converges: for any
positive epsilon some iterate is within epsilon of the target; and when
the start is below the target no iterate ever exceeds the target. The
shipped factors are 0.05 (camera position) and 0.1 (subject rotation). -/
theorem smoothing_lerp_converges (f x0 t : ℝ) (hf0 : 0 < f) (hf1 : f ≤ 1) :
    (∀ ε : ℝ, 0 < ε → ∃ N : ℕ, |lerpIter f t N x0 - t| < ε) ∧
    (x0 ≤ t → ∀ n : ℕ, lerpIter f t n x0 ≤ t) := by
  constructor
  · intro ε hε
    rcases eq_or_ne x0 t with heq | hne
    · refine ⟨0, ?_⟩
      simp [lerpIter, heq, hε]
    · have hd : 0 < |x0 - t| := abs_pos.mpr (sub_ne_zero.mpr hne)
      obtain ⟨N, hN⟩ :=
        exists_pow_lt_of_lt_one (div_pos hε hd)
          (show (1 : ℝ) - f < 1 by linarith)
      refine ⟨N, ?_⟩
      have habs : |lerpIter f t N x0 - t| = (1 - f) ^ N * |x0 - t| := by
        rw [lerpIter_sub_target, abs_mul, abs_pow,
          abs_of_nonneg (show (0:ℝ) ≤ 1 - f by linarith)]
      rw [habs]
      calc (1 - f) ^ N * |x0 - t| < (ε / |x0 - t|) * |x0 - t| :=
            mul_lt_mul_of_pos_right hN hd
        _ = ε := div_mul_cancel₀ ε (ne_of_gt hd)
  · intro hx n
    have h := lerpIter_sub_target f t x0 n
    have hpow : (0:ℝ) ≤ (1 - f) ^ n := pow_nonneg (by linarith) n
    nlinarith

/-- Claim C7, witness: the convergence statement applied with the shipped
camera factor 0.05, start 0 and target 1. -/
theorem smoothing_lerp_converges_witness :
    (0 : ℝ) < 0.05 ∧ (0.05 : ℝ) ≤ 1 ∧ (0 : ℝ) < 1 / 2 ∧ (0 : ℝ) ≤ 1 ∧
    (∃ N : ℕ, |lerpIter 0.05 1 N 0 - 1| < 1 / 2) ∧
    lerpIter 0.05 1 3 0 ≤ 1 :=
  ⟨by norm_num, by norm_num, by norm_num, by norm_num,
   (smoothing_lerp_converges 0.05 0 1 (by norm_num) (by norm_num)).1
     (1 / 2) (by norm_num),
   (smoothing_lerp_converges 0.05 0 1 (by norm_num) (by norm_num)).2
     (by norm_num) 3⟩

-- ============================================
-- Claim theorems: bounding-volume normalization (C4, C5)
-- ============================================

theorem spread_affine (s t u v : ℝ) (huv : u ≤ v) :
    max (s * u + t) (s * v + t) - min (s * u + t) (s * v + t)
      = |s| * (v - u) := by
  rw [max_sub_min_eq_abs]
  have h1 : s * v + t - (s * u + t) = s * (v - u) := by ring
  rw [h1, abs_mul, abs_of_nonneg (by linarith : (0:ℝ) ≤ v - u)]

theorem applyTransformBox_center (T : NormalizedTransform) (b : Box3) :
    boxCenter (applyTransformBox T b) =
      ⟨T.scale * (boxCenter b).x + T.translation.x,
       T.scale * (boxCenter b).y + T.translation.y,
       T.scale * (boxCenter b).z + T.translation.z⟩ := by
  simp only [applyTransformBox, boxCenter, Vec3.mk.injEq]
  refine ⟨?_, ?_, ?_⟩ <;> (rw [min_add_max]; ring)

theorem applyTransformBox_maxDimension (T : NormalizedTransform) (b : Box3)
    (hx : b.lo.x ≤ b.hi.x) (hy : b.lo.y ≤ b.hi.y) (hz : b.lo.z ≤ b.hi.z) :
    maxDimension (applyTransformBox T b) = |T.scale| * maxDimension b := by
  simp only [applyTransformBox, maxDimension, boxSize]
  rw [spread_affine _ _ _ _ hx, spread_affine _ _ _ _ hy,
    spread_affine _ _ _ _ hz,
    mul_max_of_nonneg _ _ (abs_nonneg T.scale),
    mul_max_of_nonneg _ _ (abs_nonneg T.scale)]

/-- Claim C4, failing input: the normalization in SuitModel has no guard
on the largest dimension. For a degenerate bounding box (all corners at
the origin, largest dimension 0) it silently returns a transform instead
of failing with a DegenerateGeometry error: in this real-valued model
targetSize / 0 = 0 so the returned transform is
(scale 0, translation (0.5, 0, 0)); in JavaScript the same expression is
targetSize / 0 = Infinity, a silently returned non-finite scale. -/
theorem normalizeTransform_degenerate_silent :
    maxDimension ⟨⟨0, 0, 0⟩, ⟨0, 0, 0⟩⟩ = 0 ∧
    normalizeTransform ⟨⟨0, 0, 0⟩, ⟨0, 0, 0⟩⟩ MODEL_CONFIG_targetSize
        MODEL_CONFIG_scaleMultiplier MODEL_CONFIG_yOffset
        MODEL_CONFIG_desktopPivotOffsetX
      = ⟨0, ⟨0.5, 0, 0⟩⟩ := by
  constructor <;>
    norm_num [maxDimension, boxSize, boxCenter, normalizeTransform,
      MODEL_CONFIG_targetSize, MODEL_CONFIG_scaleMultiplier,
      MODEL_CONFIG_yOffset, MODEL_CONFIG_desktopPivotOffsetX,
      NormalizedTransform.mk.injEq, Vec3.mk.injEq]

/-- Claim C5, counterexample: the round-trip property fails as stated for
every targetSize and scaleMultiplier. With the box from (0,0,0) to
(1,2,3) (largest dimension 3, positive) and targetSize = -3,
scaleMultiplier = 1, the transformed box has largest dimension 3, not
targetSize * scaleMultiplier = -3: a negative product flips the corners
and the resulting axis-aligned extent is its absolute value. -/
theorem normalize_roundtrip_cex :
    0 < maxDimension ⟨⟨0, 0, 0⟩, ⟨1, 2, 3⟩⟩ ∧
    maxDimension (applyTransformBox
        (normalizeTransform ⟨⟨0, 0, 0⟩, ⟨1, 2, 3⟩⟩ (-3) 1 0 0)
        ⟨⟨0, 0, 0⟩, ⟨1, 2, 3⟩⟩)
      ≠ (-3) * 1 := by
  constructor <;>
    norm_num [maxDimension, boxSize, boxCenter, normalizeTransform,
      applyTransformBox, max_def, min_def]

/-- Claim C5, amended: for every raw bounding box (with ordered corners)
whose largest dimension is positive, and every targetSize,
scaleMultiplier, yOffset, pivotOffsetX whose product
targetSize * scaleMultiplier is nonnegative, applying the computed
NormalizedTransform to the corners of the box yields a box centered at
(pivotOffsetX, yOffset, 0) whose largest dimension is exactly
targetSize * scaleMultiplier. (For a negative product the center is
still (pivotOffsetX, yOffset, 0) but the largest dimension is the
absolute value of the product.) -/
theorem normalize_roundtrip (b : Box3) (ts m yOff px : ℝ)
    (hx : b.lo.x ≤ b.hi.x) (hy : b.lo.y ≤ b.hi.y) (hz : b.lo.z ≤ b.hi.z)
    (hdim : 0 < maxDimension b) (hsm : 0 ≤ ts * m) :
    boxCenter (applyTransformBox (normalizeTransform b ts m yOff px) b)
      = ⟨px, yOff, 0⟩ ∧
    maxDimension (applyTransformBox (normalizeTransform b ts m yOff px) b)
      = ts * m := by
  constructor
  · rw [applyTransformBox_center]
    simp only [normalizeTransform, Vec3.mk.injEq]
    refine ⟨by ring, by ring, by ring⟩
  · rw [applyTransformBox_maxDimension _ _ hx hy hz]
    have hTs : (normalizeTransform b ts m yOff px).scale
        = ts / maxDimension b * m := rfl
    rw [hTs, abs_mul, abs_div, abs_of_pos hdim]
    rw [div_mul_eq_mul_div, div_mul_eq_mul_div,
      mul_div_cancel_right₀ _ (ne_of_gt hdim)]
    rw [← abs_mul, abs_of_nonneg hsm]

/-- Claim C5, witness: the amended round-trip at the box from (0,0,0) to
(1,2,3) with targetSize 3, scaleMultiplier 1, yOffset 0.5 and
pivotOffsetX 0.25. -/
theorem normalize_roundtrip_witness :
    ((0:ℝ) ≤ 1 ∧ (0:ℝ) ≤ 2 ∧ (0:ℝ) ≤ 3 ∧
      0 < maxDimension ⟨⟨0, 0, 0⟩, ⟨1, 2, 3⟩⟩ ∧ (0:ℝ) ≤ 3 * 1) ∧
    (boxCenter (applyTransformBox
        (normalizeTransform ⟨⟨0, 0, 0⟩, ⟨1, 2, 3⟩⟩ 3 1 0.5 0.25)
        ⟨⟨0, 0, 0⟩, ⟨1, 2, 3⟩⟩) = ⟨0.25, 0.5, 0⟩ ∧
     maxDimension (applyTransformBox
        (normalizeTransform ⟨⟨0, 0, 0⟩, ⟨1, 2, 3⟩⟩ 3 1 0.5 0.25)
        ⟨⟨0, 0, 0⟩, ⟨1, 2, 3⟩⟩) = 3 * 1) :=
  ⟨⟨by norm_num, by norm_num, by norm_num,
    by norm_num [maxDimension, boxSize, max_def, min_def], by norm_num⟩,
   normalize_roundtrip ⟨⟨0, 0, 0⟩, ⟨1, 2, 3⟩⟩ 3 1 0.5 0.25
     (by norm_num) (by norm_num) (by norm_num)
     (by norm_num [maxDimension, boxSize, max_def, min_def])
     (by norm_num)⟩
